import Mathlib

/-!
SmartX digital twin (`static/js/twin.js`).

A shallow embedding of the Babylon.js digital-twin script: the global
variables of the script form an explicit `State`, every scene object the
script creates lives in a heap of `Node`s addressed by `uniqueId`, and the
functions of the script (`createMachine`, `createSensorIndicators`,
`animateMachine`, the render-loop callback) are state transformers.

Numbers are taken in exact arithmetic: the embedding is generic over a
linearly ordered field `α`, with `Math.sin`, `Math.cos` and `Math.PI`
supplied through `JSMath`.  The two `performance.now()` reads of one
animation tick are explicit inputs.
-/

namespace SmartX

/-! ## Data model -/

/-- The `Math` functions and constant the script uses. -/
structure JSMath (α : Type) where
  sin : α → α
  cos : α → α
  PI : α

/-- A `BABYLON.Vector3`. -/
structure Vector3 (α : Type) where
  x : α
  y : α
  z : α

/-- A `BABYLON.Color3`. -/
structure Color3 (α : Type) where
  r : α
  g : α
  b : α

/-- The material classes the script instantiates. -/
inductive MaterialClass where
  | StandardMaterial
  | PBRMaterial
  deriving DecidableEq, Repr

/-- A material object: the fields the script assigns, with Babylon defaults
    (white base colour, black emissive colour, unset metallic and roughness). -/
structure Material (α : Type) where
  name : String
  cls : MaterialClass
  diffuseColor : Color3 α
  albedoColor : Color3 α
  emissiveColor : Color3 α
  metallic : Option α
  roughness : Option α

/-- What kind of scene node an object is, with the creation options of meshes. -/
inductive Shape (α : Type) where
  | Camera
  | Light
  | Ground (width height : α)
  | TransformNode
  | Box (width height depth : α)
  | Cylinder (diameter height : α)
  | Sphere (diameter : α)

/-- A scene node object (camera, light, transform node or mesh).  `parent` is a
    reference to another node, by `uniqueId`. -/
structure Node (α : Type) where
  uniqueId : Nat
  name : String
  shape : Shape α
  parent : Option Nat
  position : Vector3 α
  rotation : Vector3 α
  material : Option (Material α)
  receiveShadows : Bool
  castShadow : Bool
  isDisposed : Bool

/-- The global variables of the script (lines 2-7).  `nodes` holds every node
    object created so far, disposed ones included; the scene contains the
    nodes that are not disposed.  `machine` and `machineGroup` are references.
    `framesRendered` counts the calls of `scene.render()`. -/
structure State (α : Type) where
  nodes : List (Node α)
  nextUniqueId : Nat
  machine : Option Nat
  machineGroup : Option Nat
  sensorData : List (String × α)
  animationRunning : Bool
  currentMachine : String
  machineSpeed : α
  lightingLevel : α
  framesRendered : Nat

variable {α : Type}

/-! ## Heap access -/

/-- Dereference a node reference. -/
def getNode (id : Nat) (nodes : List (Node α)) : Option (Node α) :=
  nodes.find? (fun n => n.uniqueId == id)

/-- Mutate the object a reference points to. -/
def updateNode (id : Nat) (f : Node α → Node α) (nodes : List (Node α)) : List (Node α) :=
  nodes.map (fun n => if n.uniqueId = id then f n else n)

/-- Babylon `Node.isDescendantOf`: walk up the parent references starting from
    the parent reference `p`, for at most `fuel` steps. -/
def isDescendantOf (nodes : List (Node α)) : Nat → Nat → Option Nat → Bool
  | 0, _, _ => false
  | _ + 1, _, none => false
  | fuel + 1, ancestor, some p =>
    if p = ancestor then true
    else
      match getNode p nodes with
      | none => false
      | some q => isDescendantOf nodes fuel ancestor q.parent

/-- Babylon `Node.dispose()` with its default arguments: the node and all its
    descendants are marked disposed (which removes them from the scene) and
    their parent reference is cleared.  Materials are not disposed. -/
def dispose (id : Nat) (nodes : List (Node α)) : List (Node α) :=
  nodes.map (fun n =>
    if n.uniqueId = id ∨ isDescendantOf nodes nodes.length id n.parent = true then
      { n with isDisposed := true, parent := none }
    else n)

section Field

variable [LinearOrderedField α]

/-- A freshly constructed material of the given class. -/
def newMaterial (name : String) (cls : MaterialClass) : Material α :=
  { name := name, cls := cls,
    diffuseColor := ⟨1, 1, 1⟩, albedoColor := ⟨1, 1, 1⟩, emissiveColor := ⟨0, 0, 0⟩,
    metallic := none, roughness := none }

/-- A freshly constructed node: at the origin, unrotated, no parent, no material. -/
def newNode (id : Nat) (name : String) (shape : Shape α) : Node α :=
  { uniqueId := id, name := name, shape := shape, parent := none,
    position := ⟨0, 0, 0⟩, rotation := ⟨0, 0, 0⟩, material := none,
    receiveShadows := false, castShadow := false, isDisposed := false }

/-- The globals as declared on lines 2-7, before any function has run. -/
def initialState : State α :=
  { nodes := [], nextUniqueId := 0, machine := none, machineGroup := none,
    sensorData := [], animationRunning := true, currentMachine := "robot",
    machineSpeed := 50, lightingLevel := 80, framesRendered := 0 }

/-- Lines 16-39 of `initBabylonScene`: camera, light and ground. -/
def sceneScaffold : State α :=
  let st : State α := initialState
  let id := st.nextUniqueId
  let camera : Node α := newNode id "Camera" Shape.Camera
  let light : Node α :=
    { newNode (id + 1) "dirLight" Shape.Light with position := ⟨10, 10, 5⟩ }
  let ground : Node α :=
    { newNode (id + 2) "ground" (Shape.Ground 10 10) with
      receiveShadows := true
      material := some { newMaterial "groundMat" MaterialClass.StandardMaterial with
        diffuseColor := ⟨0.12, 0.16, 0.23⟩ } }
  { st with nodes := st.nodes ++ [camera, light, ground], nextUniqueId := id + 3 }

/-! ## `createSensorIndicators` (lines 104-125) -/

/-- The three indicator spheres, parented to the current `machineGroup`. -/
def createSensorIndicators (st : State α) : State α :=
  let id := st.nextUniqueId
  let tempSensor : Node α :=
    { newNode id "tempSensor" (Shape.Sphere 0.2) with
      position := ⟨0.8, 1.2, 0.8⟩
      parent := st.machineGroup
      material := some { newMaterial "tempMat" MaterialClass.PBRMaterial with
        emissiveColor := ⟨0.94, 0.27, 0.27⟩ } }
  let pressureSensor : Node α :=
    { newNode (id + 1) "pressureSensor" (Shape.Sphere 0.2) with
      position := ⟨-0.8, 1.2, 0.8⟩
      parent := st.machineGroup
      material := some { newMaterial "pressureMat" MaterialClass.PBRMaterial with
        emissiveColor := ⟨0.23, 0.51, 0.96⟩ } }
  let vibrationSensor : Node α :=
    { newNode (id + 2) "vibrationSensor" (Shape.Sphere 0.2) with
      position := ⟨0, 1.2, -0.8⟩
      parent := st.machineGroup
      material := some { newMaterial "vibMat" MaterialClass.PBRMaterial with
        emissiveColor := ⟨0.96, 0.62, 0.04⟩ } }
  { st with
    nodes := st.nodes ++ [tempSensor, pressureSensor, vibrationSensor]
    nextUniqueId := id + 3 }

/-! ## `createMachine` (lines 53-102) -/

/-- One support pillar of the loop on lines 85-92, for loop index `i`. -/
def pillar (M : JSMath α) (id : Nat) (group : Nat) (i : Nat) : Node α :=
  let angle : α := ((i : α) / 4) * M.PI * 2
  { newNode id "pillar" (Shape.Cylinder 0.1 1.5) with
    position := ⟨M.cos angle * 0.8, 0.75, M.sin angle * 0.8⟩
    parent := some group
    material := some { newMaterial "pillarMat" MaterialClass.PBRMaterial with
      albedoColor := ⟨0.42, 0.45, 0.50⟩ } }

/-- The assignment of lines 98-101 to one mesh. -/
def setShadows (n : Node α) : Node α :=
  { n with receiveShadows := true, castShadow := true }

/-- Dispose the previous `machineGroup` if there is one, then build a new group
    with body, panel, rotor, four pillars and the three sensor indicators.
    The function takes no argument and does not read `currentMachine`. -/
def createMachine (M : JSMath α) (st : State α) : State α :=
  let nodes0 :=
    match st.machineGroup with
    | some old => dispose old st.nodes
    | none => st.nodes
  let g := st.nextUniqueId
  let machineGroup : Node α := newNode g "machineGroup" Shape.TransformNode
  let body : Node α :=
    { newNode (g + 1) "body" (Shape.Box 2 1 2) with
      position := ⟨0, 0.5, 0⟩
      parent := some g
      material := some { newMaterial "bodyMat" MaterialClass.PBRMaterial with
        albedoColor := ⟨0.15, 0.39, 0.92⟩
        metallic := some 0.7
        roughness := some 0.3 } }
  let panel : Node α :=
    { newNode (g + 2) "panel" (Shape.Box 0.3 0.8 1.5) with
      position := ⟨1.15, 0.9, 0⟩
      parent := some g
      material := some { newMaterial "panelMat" MaterialClass.PBRMaterial with
        albedoColor := ⟨0.12, 0.16, 0.23⟩ } }
  let rotor : Node α :=
    { newNode (g + 3) "rotor" (Shape.Cylinder 0.6 0.8) with
      position := ⟨0, 1.4, 0⟩
      parent := some g
      material := some { newMaterial "rotorMat" MaterialClass.PBRMaterial with
        albedoColor := ⟨0.94, 0.27, 0.27⟩
        metallic := some 1
        roughness := some 0.2 } }
  let pillars : List (Node α) := (List.range 4).map (fun i => pillar M (g + 4 + i) g i)
  let st1 : State α :=
    { st with
      nodes := nodes0 ++ [machineGroup, body, panel, rotor] ++ pillars
      nextUniqueId := g + 8
      machineGroup := some g
      machine := some (g + 3) }
  let st2 := createSensorIndicators st1
  { st2 with
    nodes := [g + 1, g + 2, g + 3].foldl (fun ns mesh => updateNode mesh setShadows ns) st2.nodes }

/-! ## `animateMachine` (lines 127-136) -/

/-- One animation tick.  `now1` and `now2` are the values of the two
    `performance.now()` calls.  Dereferencing an undefined `machine` throws,
    which is the `none` result. -/
def animateMachine (M : JSMath α) (now1 now2 : α) (st : State α) : Option (State α) :=
  match st.machine with
  | none => none
  | some m =>
    let speedMultiplier : α := (st.machineSpeed / 100) * 0.05
    let nodes1 := updateNode m
      (fun n => { n with rotation := { n.rotation with y := n.rotation.y + speedMultiplier * 2 } })
      st.nodes
    let nodes2 :=
      if st.machineSpeed > 80 then
        let nodesX := updateNode m
          (fun n => { n with position := { n.position with x := M.sin (now1 * 0.01) * 0.02 } })
          nodes1
        updateNode m
          (fun n => { n with position := { n.position with z := M.cos (now2 * 0.01) * 0.02 } })
          nodesX
      else nodes1
    some { st with nodes := nodes2 }

/-- The call `scene.render()`: draws a frame, leaves the node objects as they are. -/
def render (st : State α) : State α :=
  { st with framesRendered := st.framesRendered + 1 }

/-- The callback registered with `engine.runRenderLoop` (lines 43-48). -/
def renderLoopCallback (M : JSMath α) (now1 now2 : α) (st : State α) : Option (State α) :=
  if st.animationRunning = true ∧ st.machine.isSome = true then
    (animateMachine M now1 now2 st).map render
  else
    some (render st)

/-- The whole of `initBabylonScene` up to the registration of the render loop. -/
def initBabylonScene (M : JSMath α) : State α :=
  createMachine M sceneScaffold

/-! ## Runs -/

/-- Consecutive calls of `animateMachine`, one per pair of clock readings.  As
    everywhere in this file the additions are exact: the rounding of the
    binary64 additions the script performs is not modelled. -/
def animateTicks (M : JSMath α) : List (α × α) → State α → Option (State α)
  | [], st => some st
  | (now1, now2) :: rest, st =>
    match animateMachine M now1 now2 st with
    | none => none
    | some st1 => animateTicks M rest st1

/-- Consecutive iterations of the render-loop callback. -/
def runRenderLoop (M : JSMath α) : List (α × α) → State α → Option (State α)
  | [], st => some st
  | (now1, now2) :: rest, st =>
    match renderLoopCallback M now1 now2 st with
    | none => none
    | some st1 => runRenderLoop M rest st1

/-- The state after `n` consecutive calls of `createMachine`. -/
def createMachineTimes (M : JSMath α) : Nat → State α → State α
  | 0, st => st
  | n + 1, st => createMachine M (createMachineTimes M n st)

/-! ## Observations -/

/-- The rotor the global `machine` refers to. -/
def rotorOf (st : State α) : Option (Node α) :=
  match st.machine with
  | none => none
  | some m => getNode m st.nodes

/-- The live (not disposed) transform nodes named `machineGroup`. -/
def liveGroups (st : State α) : List Nat :=
  (st.nodes.filter (fun n => !n.isDisposed && n.name == "machineGroup")).map (fun n => n.uniqueId)

/-- The live nodes parented to the node `g`. -/
def ownedParts (g : Nat) (st : State α) : List (Node α) :=
  st.nodes.filter (fun n => !n.isDisposed && n.parent == some g)

/-- The emissive colour of the live node named `name`, if there is one. -/
def emissiveOf (name : String) (st : State α) : Option (Color3 α) :=
  match st.nodes.find? (fun n => !n.isDisposed && n.name == name) with
  | none => none
  | some n => n.material.map (fun m => m.emissiveColor)

/-- Every node and every parent reference is older than the next id. -/
def WellFormed (st : State α) : Prop :=
  ∀ n ∈ st.nodes, n.uniqueId < st.nextUniqueId ∧
    ∀ p, n.parent = some p → p < st.nextUniqueId

/-- The rotor after one tick, as a function of the rotor before it. -/
def tickedRotor (M : JSMath α) (now1 now2 speed : α) (r : Node α) : Node α :=
  let r1 : Node α :=
    { r with rotation := { r.rotation with y := r.rotation.y + (speed / 100) * 0.05 * 2 } }
  if speed > 80 then
    { r1 with position :=
        { r1.position with x := M.sin (now1 * 0.01) * 0.02, z := M.cos (now2 * 0.01) * 0.02 } }
  else r1

/-- The heap after the `dispose` step of `createMachine` (lines 54-56). -/
def previousDisposed (st : State α) : List (Node α) :=
  match st.machineGroup with
  | some old => dispose old st.nodes
  | none => st.nodes

/-- The eleven nodes `createMachine` builds when the next free id is `g`:
    what it leaves in an otherwise empty heap. -/
def robotBlock (M : JSMath α) (g : Nat) : List (Node α) :=
  (createMachine M { (initialState : State α) with nextUniqueId := g }).nodes

/-- The shape of the heap after `createMachine` has run at least once on the
    scaffold: the newest robot block, with group id `g`, preceded by `g` older
    nodes that have no parent and are disposed unless they belong to the scaffold. -/
def Rebuilt (M : JSMath α) (g : Nat) (st : State α) : Prop :=
  ∃ old : List (Node α),
    st.nodes = old ++ robotBlock M g ∧ st.machineGroup = some g ∧ st.machine = some (g + 3)
      ∧ st.nextUniqueId = g + 11 ∧ old.length = g
      ∧ ∀ n ∈ old, n.uniqueId < g ∧ n.parent = none
          ∧ (n.isDisposed = false → n.name ≠ "machineGroup" ∧ n.uniqueId < 3)

end Field

/-! ## Heap lemmas -/

section Heap

variable {α : Type}

theorem getNode_updateNode (id m : Nat) (f : Node α → Node α)
    (hf : ∀ n, (f n).uniqueId = n.uniqueId) (ns : List (Node α)) :
    getNode id (updateNode m f ns)
      = (getNode id ns).map (fun n => if n.uniqueId = m then f n else n) := by
  induction ns with
  | nil => rfl
  | cons a t ih =>
    have hkey : ((if a.uniqueId = m then f a else a).uniqueId == id) = (a.uniqueId == id) := by
      by_cases ha : a.uniqueId = m
      · rw [if_pos ha, hf]
      · rw [if_neg ha]
    simp only [getNode, updateNode, List.map_cons, List.find?_cons] at ih ⊢
    rw [hkey]
    cases a.uniqueId == id with
    | true => rfl
    | false => exact ih

theorem getNode_uniqueId {id : Nat} {ns : List (Node α)} {r : Node α}
    (h : getNode id ns = some r) : r.uniqueId = id := by
  unfold getNode at h
  have := List.find?_some h
  simpa using this

theorem updateNode_append (m : Nat) (f : Node α → Node α) (xs ys : List (Node α)) :
    updateNode m f (xs ++ ys) = updateNode m f xs ++ updateNode m f ys := by
  simp [updateNode]

theorem updateNode_of_lt (m g : Nat) (f : Node α → Node α) (xs : List (Node α))
    (h : ∀ n ∈ xs, n.uniqueId < g) (hm : g ≤ m) : updateNode m f xs = xs := by
  unfold updateNode
  conv_rhs => rw [← List.map_id xs]
  apply List.map_congr_left
  intro n hn
  have := h n hn
  have hne : n.uniqueId ≠ m := by omega
  simp [hne]

theorem dispose_uniqueId_lt (id g : Nat) (xs : List (Node α))
    (h : ∀ n ∈ xs, n.uniqueId < g) : ∀ n ∈ dispose id xs, n.uniqueId < g := by
  intro n hn
  unfold dispose at hn
  rw [List.mem_map] at hn
  obtain ⟨a, ha, rfl⟩ := hn
  have := h a ha
  split <;> simpa using this

theorem getNode_append_of_lt (id g : Nat) (xs ys : List (Node α))
    (h : ∀ n ∈ xs, n.uniqueId < g) (hid : g ≤ id) :
    getNode id (xs ++ ys) = getNode id ys := by
  unfold getNode
  rw [List.find?_append]
  have : List.find? (fun n => n.uniqueId == id) xs = none := by
    rw [List.find?_eq_none]
    intro n hn
    have := h n hn
    have hne : n.uniqueId ≠ id := by omega
    simpa using hne
  rw [this]
  rfl

theorem previousDisposed_lt (st : State α) (g : Nat)
    (h : ∀ n ∈ st.nodes, n.uniqueId < g) : ∀ n ∈ previousDisposed st, n.uniqueId < g := by
  unfold previousDisposed
  cases st.machineGroup with
  | none => exact h
  | some old => exact dispose_uniqueId_lt old g st.nodes h

theorem WellFormed.ids (st : State α) (h : WellFormed st) :
    ∀ n ∈ st.nodes, n.uniqueId < st.nextUniqueId :=
  fun n hn => (h n hn).1

theorem isDescendantOf_none (nodes : List (Node α)) (fuel g : Nat) :
    isDescendantOf nodes fuel g none = false := by
  cases fuel <;> rfl

theorem isDescendantOf_parent (nodes : List (Node α)) (fuel g : Nat) :
    isDescendantOf nodes (fuel + 1) g (some g) = true := by
  simp [isDescendantOf]

theorem getNode_map (id : Nat) (F : Node α → Node α)
    (hF : ∀ n, (F n).uniqueId = n.uniqueId) (ns : List (Node α)) :
    getNode id (ns.map F) = (getNode id ns).map F := by
  induction ns with
  | nil => rfl
  | cons a t ih =>
    simp only [getNode, List.map_cons, List.find?_cons] at ih ⊢
    rw [hF]
    cases a.uniqueId == id with
    | true => rfl
    | false => exact ih

theorem getNode_mem {id : Nat} {ns : List (Node α)} {r : Node α}
    (h : getNode id ns = some r) : r ∈ ns := by
  unfold getNode at h
  exact List.mem_of_find?_eq_some h

/-- Disposing a node that is in the heap marks it disposed. -/
theorem getNode_dispose_self (g : Nat) (ns : List (Node α)) (grp : Node α)
    (h : getNode g ns = some grp) :
    ∃ grp1, getNode g (dispose g ns) = some grp1 ∧ grp1.isDisposed = true := by
  unfold dispose
  rw [getNode_map g _ (fun n => by split <;> rfl), h]
  have hid := getNode_uniqueId h
  exact ⟨_, rfl, by simp [hid]⟩

/-- After `dispose g`, no node is parented to `g`. -/
theorem dispose_no_child (g : Nat) (ns : List (Node α)) :
    ∀ n ∈ dispose g ns, n.parent ≠ some g := by
  intro n hn
  unfold dispose at hn
  rw [List.mem_map] at hn
  obtain ⟨a, ha, rfl⟩ := hn
  split
  · simp
  · rename_i hcond
    intro hp
    apply hcond
    right
    obtain ⟨k, hk⟩ : ∃ k, ns.length = k + 1 := by
      cases ns with
      | nil => cases ha
      | cons b t => exact ⟨t.length, rfl⟩
    rw [hp, hk]
    exact isDescendantOf_parent _ _ _

theorem previousDisposed_parent_lt (st : State α) (h : WellFormed st) :
    ∀ a ∈ previousDisposed st, ∀ p, a.parent = some p → p < st.nextUniqueId := by
  unfold previousDisposed
  cases st.machineGroup with
  | none => exact fun a ha => (h a ha).2
  | some old =>
    intro a ha
    unfold dispose at ha
    rw [List.mem_map] at ha
    obtain ⟨b, hb, rfl⟩ := ha
    split
    · simp
    · exact (h b hb).2

theorem emissiveOf_map_nodes (F : Node α → Node α)
    (hF : ∀ n, (F n).name = n.name ∧ (F n).isDisposed = n.isDisposed
      ∧ (F n).material = n.material)
    (name : String) (st : State α) :
    emissiveOf name { st with nodes := st.nodes.map F } = emissiveOf name st := by
  unfold emissiveOf
  simp only
  generalize st.nodes = ns
  induction ns with
  | nil => rfl
  | cons a t ih =>
    simp only [List.map_cons, List.find?_cons]
    obtain ⟨h1, h2, h3⟩ := hF a
    rw [h1, h2]
    cases (!a.isDisposed && a.name == name) with
    | true => simp only [h3]
    | false => exact ih

/-- Disposing `g` marks `g` and every node parented to `g` disposed. -/
theorem dispose_mem_of_part (g : Nat) (ns : List (Node α)) (p : Node α) (hp : p ∈ ns)
    (h : p.uniqueId = g ∨ p.parent = some g) :
    ({ p with isDisposed := true, parent := none } : Node α) ∈ dispose g ns := by
  unfold dispose
  rw [List.mem_map]
  refine ⟨p, hp, ?_⟩
  have hcond : p.uniqueId = g ∨ isDescendantOf ns ns.length g p.parent = true := by
    rcases h with h | h
    · exact Or.inl h
    · right
      obtain ⟨k, hk⟩ : ∃ k, ns.length = k + 1 := by
        cases ns with
        | nil => cases hp
        | cons b t => exact ⟨t.length, rfl⟩
      rw [h, hk]
      exact isDescendantOf_parent _ _ _
  rw [if_pos hcond]

/-- A node that is live after `dispose g` is an untouched node of the heap that
    is neither `g` nor parented to `g`. -/
theorem dispose_live (g : Nat) (ns : List (Node α)) (q : Node α) (hq : q ∈ dispose g ns)
    (hl : q.isDisposed = false) :
    q ∈ ns ∧ q.uniqueId ≠ g ∧ q.parent ≠ some g := by
  have hpar := dispose_no_child g ns q hq
  unfold dispose at hq
  rw [List.mem_map] at hq
  obtain ⟨a, ha, rfl⟩ := hq
  by_cases hcond : a.uniqueId = g ∨ isDescendantOf ns ns.length g a.parent = true
  · rw [if_pos hcond] at hl
    simp at hl
  · rw [if_neg hcond] at hpar ⊢
    exact ⟨ha, fun he => hcond (Or.inl he), hpar⟩

end Heap

section Tick

variable {α : Type} [LinearOrderedField α]

/-- What one tick does to the state: only the node `machine` refers to changes. -/
theorem animateMachine_eq (M : JSMath α) (now1 now2 : α) (st : State α) (m : Nat)
    (hm : st.machine = some m) :
    animateMachine M now1 now2 st
      = some { st with nodes := updateNode m (tickedRotor M now1 now2 st.machineSpeed) st.nodes } := by
  unfold animateMachine
  rw [hm]
  by_cases hs : st.machineSpeed > 80
  · simp only [hs, if_true]
    congr 2
    unfold updateNode tickedRotor
    simp only [List.map_map, hs, if_true]
    apply List.map_congr_left
    intro n _
    by_cases hn : n.uniqueId = m <;> simp [Function.comp, hn]
  · simp only [hs, if_false]
    congr 2
    unfold updateNode tickedRotor
    simp only [hs, if_false]

theorem tickedRotor_uniqueId (M : JSMath α) (now1 now2 speed : α) (r : Node α) :
    (tickedRotor M now1 now2 speed r).uniqueId = r.uniqueId := by
  unfold tickedRotor
  by_cases hs : speed > 80 <;> simp [hs]

/-- The rotor after a tick is the ticked rotor. -/
theorem rotorOf_animateMachine (M : JSMath α) (now1 now2 : α) (st : State α) (r : Node α)
    (hr : rotorOf st = some r) :
    ∃ st1, animateMachine M now1 now2 st = some st1
      ∧ rotorOf st1 = some (tickedRotor M now1 now2 st.machineSpeed r)
      ∧ st1.machine = st.machine
      ∧ st1.machineSpeed = st.machineSpeed
      ∧ st1.animationRunning = st.animationRunning := by
  unfold rotorOf at hr
  cases hm : st.machine with
  | none => simp [hm] at hr
  | some m =>
    simp only [hm] at hr
    refine ⟨_, animateMachine_eq M now1 now2 st m hm, ?_, ?_, rfl, rfl⟩
    · have hid := getNode_uniqueId hr
      simp [rotorOf, hm, getNode_updateNode _ _ _ (tickedRotor_uniqueId M now1 now2 _), hr, hid]
    · simp [hm]

theorem tickedRotor_rotation_y (M : JSMath α) (now1 now2 speed : α) (r : Node α) :
    (tickedRotor M now1 now2 speed r).rotation.y = r.rotation.y + (speed / 100) * 0.05 * 2 := by
  unfold tickedRotor
  by_cases hs : speed > 80 <;> simp [hs]

theorem tickedRotor_position_of_gt (M : JSMath α) (now1 now2 speed : α) (r : Node α)
    (hs : 80 < speed) :
    (tickedRotor M now1 now2 speed r).position.x = M.sin (now1 * 0.01) * 0.02
      ∧ (tickedRotor M now1 now2 speed r).position.z = M.cos (now2 * 0.01) * 0.02 := by
  unfold tickedRotor
  simp [hs]

theorem tickedRotor_position_of_le (M : JSMath α) (now1 now2 speed : α) (r : Node α)
    (hs : speed ≤ 80) :
    (tickedRotor M now1 now2 speed r).position = r.position := by
  unfold tickedRotor
  simp [not_lt.mpr hs]

/-- `N` ticks at an unchanged speed add `N` increments to the angle; nothing wraps it. -/
theorem animateTicks_rotation (M : JSMath α) (clocks : List (α × α)) :
    ∀ (st : State α) (r : Node α), rotorOf st = some r →
      ∃ st1 r1, animateTicks M clocks st = some st1 ∧ rotorOf st1 = some r1
        ∧ st1.machineSpeed = st.machineSpeed
        ∧ r1.rotation.y
            = r.rotation.y + (clocks.length : α) * ((st.machineSpeed / 100) * 0.05 * 2) := by
  induction clocks with
  | nil =>
    intro st r hr
    exact ⟨st, r, rfl, hr, rfl, by simp⟩
  | cons c rest ih =>
    intro st r hr
    obtain ⟨now1, now2⟩ := c
    obtain ⟨st1, h1, hr1, _, hsp, _⟩ := rotorOf_animateMachine M now1 now2 st r hr
    obtain ⟨st2, r2, h2, hr2, hsp2, hy⟩ := ih st1 _ hr1
    refine ⟨st2, r2, ?_, hr2, by rw [hsp2, hsp], ?_⟩
    · simp only [animateTicks, h1, h2]
    · rw [hy, tickedRotor_rotation_y, hsp]
      simp only [List.length_cons]
      push_cast
      ring

/-- While `animationRunning` is false the render loop only renders. -/
theorem runRenderLoop_paused (M : JSMath α) (clocks : List (α × α)) :
    ∀ st : State α, st.animationRunning = false →
      runRenderLoop M clocks st
        = some { st with framesRendered := st.framesRendered + clocks.length } := by
  induction clocks with
  | nil => intro st _; rfl
  | cons c rest ih =>
    intro st h
    obtain ⟨now1, now2⟩ := c
    have hstep : renderLoopCallback M now1 now2 st = some (render st) := by
      simp [renderLoopCallback, h]
    simp only [runRenderLoop, hstep]
    rw [ih (render st) h]
    simp only [render, List.length_cons]
    congr 2
    omega

theorem tickedRotor_keeps (M : JSMath α) (now1 now2 speed : α) (n : Node α) :
    (tickedRotor M now1 now2 speed n).name = n.name
      ∧ (tickedRotor M now1 now2 speed n).isDisposed = n.isDisposed
      ∧ (tickedRotor M now1 now2 speed n).material = n.material := by
  unfold tickedRotor
  by_cases hs : speed > 80 <;> simp [hs]

/-- One iteration of the render loop always succeeds, reads no sensor data and
    changes no emissive colour. -/
theorem renderLoopCallback_emissive (M : JSMath α) (now1 now2 : α) (st : State α)
    (name : String) :
    ∃ st1, renderLoopCallback M now1 now2 st = some st1
      ∧ emissiveOf name st1 = emissiveOf name st ∧ st1.sensorData = st.sensorData := by
  unfold renderLoopCallback
  by_cases hc : st.animationRunning = true ∧ st.machine.isSome = true
  · rw [if_pos hc]
    obtain ⟨m, hm⟩ := Option.isSome_iff_exists.mp hc.2
    rw [animateMachine_eq M now1 now2 st m hm]
    refine ⟨_, rfl, ?_, rfl⟩
    have := emissiveOf_map_nodes
      (fun n => if n.uniqueId = m then tickedRotor M now1 now2 st.machineSpeed n else n)
      (fun n => by
        by_cases hn : n.uniqueId = m
        · simp only [if_pos hn]; exact tickedRotor_keeps M now1 now2 _ n
        · simp [hn])
      name st
    exact this
  · rw [if_neg hc]
    exact ⟨_, rfl, rfl, rfl⟩

end Tick

/-! ## `createMachine` lemmas -/

section Build

variable {α : Type} [LinearOrderedField α]

/-- The heap after `createMachine`: the old heap with the previous group
    disposed, followed by the new robot block. -/
theorem createMachine_nodes (M : JSMath α) (st : State α)
    (hwf : ∀ n ∈ st.nodes, n.uniqueId < st.nextUniqueId) :
    (createMachine M st).nodes = previousDisposed st ++ robotBlock M st.nextUniqueId := by
  have hlt := previousDisposed_lt st st.nextUniqueId hwf
  have h1 := updateNode_of_lt (st.nextUniqueId + 1) st.nextUniqueId setShadows _ hlt (by omega)
  have h2 := updateNode_of_lt (st.nextUniqueId + 2) st.nextUniqueId setShadows _ hlt (by omega)
  have h3 := updateNode_of_lt (st.nextUniqueId + 3) st.nextUniqueId setShadows _ hlt (by omega)
  unfold previousDisposed at h1 h2 h3 ⊢
  simp only [createMachine, createSensorIndicators, robotBlock, initialState, List.foldl_cons,
    List.foldl_nil, List.append_assoc, updateNode_append, h1, h2, h3, List.nil_append]

theorem range_four : List.range 4 = [0, 1, 2, 3] := by decide

/-- Identity, name, parent and liveness of the eleven nodes of a robot block. -/
theorem robotBlock_summary (M : JSMath α) (g : Nat) :
    (robotBlock M g).map (fun n => (n.uniqueId, n.name, n.parent, n.isDisposed))
      = [(g, "machineGroup", none, false), (g + 1, "body", some g, false),
         (g + 2, "panel", some g, false), (g + 3, "rotor", some g, false),
         (g + 4, "pillar", some g, false), (g + 5, "pillar", some g, false),
         (g + 6, "pillar", some g, false), (g + 7, "pillar", some g, false),
         (g + 8, "tempSensor", some g, false), (g + 9, "pressureSensor", some g, false),
         (g + 10, "vibrationSensor", some g, false)] := by
  simp [robotBlock, createMachine, createSensorIndicators, initialState, updateNode, newNode,
    pillar, setShadows, range_four]

/-- The rotor of a robot block: unrotated, on the axis, live. -/
theorem robotBlock_rotor (M : JSMath α) (g : Nat) :
    ∃ r, getNode (g + 3) (robotBlock M g) = some r ∧ r.name = "rotor" ∧ r.parent = some g
      ∧ r.isDisposed = false ∧ r.rotation.y = 0 ∧ r.position.x = 0 ∧ r.position.z = 0 := by
  simp [robotBlock, createMachine, createSensorIndicators, initialState, updateNode, newNode,
    pillar, setShadows, range_four, getNode, List.find?_cons]

theorem robotBlock_length (M : JSMath α) (g : Nat) : (robotBlock M g).length = 11 := by
  have := congrArg List.length (robotBlock_summary M g)
  simpa using this

theorem robotBlock_mem (M : JSMath α) (g : Nat) (n : Node α) (hn : n ∈ robotBlock M g) :
    g ≤ n.uniqueId ∧ n.uniqueId < g + 11 ∧ n.isDisposed = false
      ∧ ((n.uniqueId = g ∧ n.parent = none) ∨ (g < n.uniqueId ∧ n.parent = some g)) := by
  have h : (n.uniqueId, n.name, n.parent, n.isDisposed)
      ∈ (robotBlock M g).map (fun n => (n.uniqueId, n.name, n.parent, n.isDisposed)) :=
    List.mem_map_of_mem _ hn
  rw [robotBlock_summary] at h
  simp only [List.mem_cons, Prod.mk.injEq, List.mem_singleton, List.not_mem_nil, or_false] at h
  rcases h with h | h | h | h | h | h | h | h | h | h | h <;>
    obtain ⟨h1, _, h3, h4⟩ := h <;> simp [h1, h3, h4]

theorem createMachine_fields (M : JSMath α) (st : State α) :
    (createMachine M st).nextUniqueId = st.nextUniqueId + 11
      ∧ (createMachine M st).machineGroup = some st.nextUniqueId
      ∧ (createMachine M st).machine = some (st.nextUniqueId + 3)
      ∧ (createMachine M st).machineSpeed = st.machineSpeed
      ∧ (createMachine M st).animationRunning = st.animationRunning
      ∧ (createMachine M st).currentMachine = st.currentMachine
      ∧ (createMachine M st).sensorData = st.sensorData :=
  ⟨rfl, rfl, rfl, rfl, rfl, rfl, rfl⟩

theorem wellFormed_sceneScaffold : WellFormed (sceneScaffold : State α) := by
  intro n hn
  simp only [sceneScaffold, initialState, List.nil_append, List.mem_cons, List.mem_singleton,
    List.not_mem_nil, or_false] at hn
  rcases hn with rfl | rfl | rfl <;> simp [sceneScaffold, initialState, newNode]

theorem wellFormed_createMachine (M : JSMath α) (st : State α) (h : WellFormed st) :
    WellFormed (createMachine M st) := by
  intro n hn
  rw [createMachine_nodes M st h.ids, List.mem_append] at hn
  rw [(createMachine_fields M st).1]
  rcases hn with hn | hn
  · have hold : ∀ a ∈ previousDisposed st, a.uniqueId < st.nextUniqueId ∧
        ∀ p, a.parent = some p → p < st.nextUniqueId := by
      unfold previousDisposed
      cases st.machineGroup with
      | none => exact h
      | some old =>
        intro a ha
        unfold dispose at ha
        rw [List.mem_map] at ha
        obtain ⟨b, hb, rfl⟩ := ha
        have hb2 := h b hb
        split
        · exact ⟨hb2.1, by simp⟩
        · exact hb2
    have := hold n hn
    exact ⟨by omega, fun p hp => by have := this.2 p hp; omega⟩
  · obtain ⟨h1, h2, _, h4⟩ := robotBlock_mem M _ n hn
    refine ⟨h2, fun p hp => ?_⟩
    rcases h4 with ⟨_, hp2⟩ | ⟨_, hp2⟩
    · rw [hp2] at hp; cases hp
    · rw [hp2] at hp
      cases hp
      omega

theorem wellFormed_animateMachine (M : JSMath α) (now1 now2 : α) (st st1 : State α)
    (h : WellFormed st) (hstep : animateMachine M now1 now2 st = some st1) :
    WellFormed st1 := by
  cases hm : st.machine with
  | none => simp [animateMachine, hm] at hstep
  | some m =>
    rw [animateMachine_eq M now1 now2 st m hm] at hstep
    cases hstep
    intro n hn
    simp only [updateNode, List.mem_map] at hn
    obtain ⟨a, ha, rfl⟩ := hn
    have ha2 := h a ha
    by_cases hs : st.machineSpeed > 80 <;> by_cases hid : a.uniqueId = m <;>
      simpa [tickedRotor, hs, hid] using ha2

/-- After `createMachine`, `machine` refers to the rotor of the new block. -/
theorem rotorOf_createMachine (M : JSMath α) (st : State α) (h : WellFormed st) :
    ∃ r, rotorOf (createMachine M st) = some r ∧ r.uniqueId = st.nextUniqueId + 3
      ∧ r.name = "rotor" ∧ r.parent = some st.nextUniqueId ∧ r.isDisposed = false
      ∧ r.rotation.y = 0 ∧ r.position.x = 0 ∧ r.position.z = 0 := by
  obtain ⟨r, hr, h1, h2, h3, h4, h5, h6⟩ := robotBlock_rotor M st.nextUniqueId
  refine ⟨r, ?_, getNode_uniqueId hr, h1, h2, h3, h4, h5, h6⟩
  unfold rotorOf
  rw [(createMachine_fields M st).2.2.1, createMachine_nodes M st h.ids]
  simp only
  rw [getNode_append_of_lt _ st.nextUniqueId _ _ (previousDisposed_lt st _ h.ids) (by omega)]
  exact hr

theorem wellFormed_initBabylonScene (M : JSMath α) : WellFormed (initBabylonScene M) :=
  wellFormed_createMachine M _ wellFormed_sceneScaffold

theorem rebuilt_first (M : JSMath α) : Rebuilt M 3 (createMachine M sceneScaffold) := by
  refine ⟨(sceneScaffold : State α).nodes, ?_, rfl, rfl, rfl, rfl, ?_⟩
  · rw [createMachine_nodes M _ wellFormed_sceneScaffold.ids]
    rfl
  · intro n hn
    simp only [sceneScaffold, initialState, List.nil_append, List.mem_cons, List.mem_singleton,
      List.not_mem_nil, or_false] at hn
    rcases hn with rfl | rfl | rfl <;> simp [newNode]

theorem rebuilt_step (M : JSMath α) (g : Nat) (st : State α) (h : Rebuilt M g st) :
    Rebuilt M (g + 11) (createMachine M st) := by
  obtain ⟨old, hnodes, hgrp, _, hnext, hlen, hold⟩ := h
  have hids : ∀ n ∈ st.nodes, n.uniqueId < st.nextUniqueId := by
    intro n hn
    rw [hnodes, List.mem_append] at hn
    rw [hnext]
    rcases hn with hn | hn
    · have := (hold n hn).1; omega
    · exact (robotBlock_mem M g n hn).2.1
  have hfields := createMachine_fields M st
  refine ⟨previousDisposed st, ?_, ?_, ?_, ?_, ?_, ?_⟩
  · rw [createMachine_nodes M st hids, hnext]
  · rw [hfields.2.1, hnext]
  · rw [hfields.2.2.1, hnext]
  · rw [hfields.1, hnext]
  · have := robotBlock_length M g
    simp only [previousDisposed, hgrp, dispose, hnodes, List.length_map, List.length_append]
    omega
  · intro n hn
    simp only [previousDisposed, hgrp, dispose, List.mem_map] at hn
    obtain ⟨a, ha, rfl⟩ := hn
    rw [hnodes, List.mem_append] at ha
    rcases ha with ha | ha
    · obtain ⟨h1, h2, h3⟩ := hold a ha
      have hne : a.uniqueId ≠ g := by omega
      have hcond : ¬ (a.uniqueId = g ∨
          isDescendantOf st.nodes st.nodes.length g a.parent = true) := by
        rw [h2, isDescendantOf_none]
        simp [hne]
      rw [if_neg hcond]
      exact ⟨by omega, h2, h3⟩
    · obtain ⟨_, h2, _, h4⟩ := robotBlock_mem M g a ha
      have hcond : a.uniqueId = g ∨
          isDescendantOf st.nodes st.nodes.length g a.parent = true := by
        rcases h4 with ⟨h4, _⟩ | ⟨_, h4⟩
        · exact Or.inl h4
        · right
          have hl : st.nodes.length = (old.length + 10) + 1 := by
            rw [hnodes, List.length_append, robotBlock_length M g]
          rw [h4, hl]
          exact isDescendantOf_parent _ _ _
      rw [if_pos hcond]
      exact ⟨h2, rfl, fun hd => by simp at hd⟩

/-- After `n + 1` calls of `createMachine` on the scaffold the heap is `Rebuilt`
    around the group with id `3 + 11 * n`. -/
theorem rebuilt_createMachineTimes (M : JSMath α) (n : Nat) :
    Rebuilt M (3 + 11 * n) (createMachineTimes M (n + 1) sceneScaffold) := by
  induction n with
  | zero => exact rebuilt_first M
  | succ k ih =>
    have := rebuilt_step M _ _ ih
    have he : 3 + 11 * (k + 1) = 3 + 11 * k + 11 := by ring
    rw [he]
    exact this

theorem robotBlock_liveGroups (M : JSMath α) (g : Nat) :
    ((robotBlock M g).filter (fun n => !n.isDisposed && n.name == "machineGroup")).map
      (fun n => n.uniqueId) = [g] := by
  simp [robotBlock, createMachine, createSensorIndicators, initialState, updateNode, newNode,
    pillar, setShadows, range_four, List.filter_cons]

theorem robotBlock_ownedParts (M : JSMath α) (g : Nat) :
    ((robotBlock M g).filter (fun n => !n.isDisposed && n.parent == some g)).map
      (fun n => (n.uniqueId, n.name))
      = [(g + 1, "body"), (g + 2, "panel"), (g + 3, "rotor"), (g + 4, "pillar"),
         (g + 5, "pillar"), (g + 6, "pillar"), (g + 7, "pillar"), (g + 8, "tempSensor"),
         (g + 9, "pressureSensor"), (g + 10, "vibrationSensor")] := by
  simp [robotBlock, createMachine, createSensorIndicators, initialState, updateNode, newNode,
    pillar, setShadows, range_four, List.filter_cons]

/-- What a `Rebuilt` heap looks like from outside. -/
theorem rebuilt_observations (M : JSMath α) (g : Nat) (st : State α) (h : Rebuilt M g st) :
    st.machineGroup = some g ∧ liveGroups st = [g]
      ∧ (ownedParts g st).map (fun n => (n.uniqueId, n.name))
          = [(g + 1, "body"), (g + 2, "panel"), (g + 3, "rotor"), (g + 4, "pillar"),
             (g + 5, "pillar"), (g + 6, "pillar"), (g + 7, "pillar"), (g + 8, "tempSensor"),
             (g + 9, "pressureSensor"), (g + 10, "vibrationSensor")]
      ∧ st.machine = some (g + 3)
      ∧ st.nodes.length = g + 11
      ∧ ∀ n ∈ st.nodes, 3 ≤ n.uniqueId → n.uniqueId < g →
          n.isDisposed = true ∧ n.parent = none := by
  obtain ⟨old, hnodes, hgrp, hm, _, hlen, hold⟩ := h
  refine ⟨hgrp, ?_, ?_, hm, ?_, ?_⟩
  · have hnil : old.filter (fun n => !n.isDisposed && n.name == "machineGroup") = [] := by
      rw [List.filter_eq_nil_iff]
      intro n hn
      obtain ⟨_, _, h3⟩ := hold n hn
      cases hd : n.isDisposed with
      | true => simp
      | false => simpa using (h3 hd).1
    unfold liveGroups
    rw [hnodes, List.filter_append, hnil, List.nil_append]
    exact robotBlock_liveGroups M g
  · have hnil : old.filter (fun n => !n.isDisposed && n.parent == some g) = [] := by
      rw [List.filter_eq_nil_iff]
      intro n hn
      obtain ⟨_, h2, _⟩ := hold n hn
      simp [h2]
    unfold ownedParts
    rw [hnodes, List.filter_append, hnil, List.nil_append]
    exact robotBlock_ownedParts M g
  · rw [hnodes, List.length_append, robotBlock_length, hlen]
  · intro n hn h3 hg
    rw [hnodes, List.mem_append] at hn
    rcases hn with hn | hn
    · obtain ⟨_, h2, h4⟩ := hold n hn
      refine ⟨?_, h2⟩
      cases hd : n.isDisposed with
      | true => rfl
      | false => have := (h4 hd).2; omega
    · have := (robotBlock_mem M g n hn).1
      omega

theorem rebuilt_rotor (M : JSMath α) (g : Nat) (st : State α) (h : Rebuilt M g st) :
    ∃ r, rotorOf st = some r ∧ r.uniqueId = g + 3 ∧ r.name = "rotor" ∧ r.parent = some g
      ∧ r.isDisposed = false := by
  obtain ⟨old, hnodes, _, hm, _, _, hold⟩ := h
  obtain ⟨r, hr, h1, h2, h3, _⟩ := robotBlock_rotor M g
  refine ⟨r, ?_, getNode_uniqueId hr, h1, h2, h3⟩
  unfold rotorOf
  rw [hm, hnodes]
  simp only
  rw [getNode_append_of_lt _ g _ _ (fun n hn => (hold n hn).1) (by omega)]
  exact hr

theorem createMachineTimes_wellFormed (M : JSMath α) (n : Nat) :
    WellFormed (createMachineTimes M n (sceneScaffold : State α))
      ∧ (createMachineTimes M n (sceneScaffold : State α)).nextUniqueId = 3 + 11 * n := by
  induction n with
  | zero => exact ⟨wellFormed_sceneScaffold, rfl⟩
  | succ k ih =>
    refine ⟨wellFormed_createMachine M _ ih.1, ?_⟩
    show (createMachine M (createMachineTimes M k sceneScaffold)).nextUniqueId = _
    rw [(createMachine_fields M _).1, ih.2]
    ring

/-- The group `createMachine` finds in `machineGroup` is disposed by it. -/
theorem createMachine_previous_disposed (M : JSMath α) (st : State α) (h : WellFormed st)
    (g0 : Nat) (grp : Node α) (hg : st.machineGroup = some g0)
    (hgrp : getNode g0 st.nodes = some grp) :
    ∃ grp1, getNode g0 (createMachine M st).nodes = some grp1 ∧ grp1.isDisposed = true := by
  obtain ⟨grp1, h1, h2⟩ := getNode_dispose_self g0 st.nodes grp hgrp
  refine ⟨grp1, ?_, h2⟩
  rw [createMachine_nodes M st h.ids]
  unfold previousDisposed
  rw [hg]
  unfold getNode at h1 ⊢
  rw [List.find?_append, h1]
  rfl

/-- After `createMachine` nothing live is parented to the previous group. -/
theorem createMachine_previous_parts (M : JSMath α) (st : State α) (h : WellFormed st)
    (g0 : Nat) (grp : Node α) (hg : st.machineGroup = some g0)
    (hgrp : getNode g0 st.nodes = some grp) :
    ownedParts g0 (createMachine M st) = [] := by
  have hlt : g0 < st.nextUniqueId := by
    have := (h grp (getNode_mem hgrp)).1
    rw [getNode_uniqueId hgrp] at this
    exact this
  unfold ownedParts
  rw [List.filter_eq_nil_iff]
  intro n hn
  rw [createMachine_nodes M st h.ids, List.mem_append] at hn
  have hp : n.parent ≠ some g0 := by
    rcases hn with hn | hn
    · unfold previousDisposed at hn
      rw [hg] at hn
      exact dispose_no_child g0 st.nodes n hn
    · obtain ⟨_, _, _, h4⟩ := robotBlock_mem M _ n hn
      rcases h4 with ⟨_, h4⟩ | ⟨_, h4⟩
      · rw [h4]; simp
      · rw [h4]
        intro he
        cases he
        omega
  simp [hp]

/-- After `createMachine` the new group owns the ten parts of the robot. -/
theorem createMachine_new_parts (M : JSMath α) (st : State α) (h : WellFormed st) :
    (ownedParts st.nextUniqueId (createMachine M st)).map (fun n => n.name)
      = ["body", "panel", "rotor", "pillar", "pillar", "pillar", "pillar", "tempSensor",
         "pressureSensor", "vibrationSensor"] := by
  have hnil : (previousDisposed st).filter
      (fun n => !n.isDisposed && n.parent == some st.nextUniqueId) = [] := by
    rw [List.filter_eq_nil_iff]
    intro n hn
    have hp : n.parent ≠ some st.nextUniqueId := by
      intro he
      have := previousDisposed_parent_lt st h n hn _ he
      omega
    simp [hp]
  unfold ownedParts
  rw [createMachine_nodes M st h.ids, List.filter_append, hnil, List.nil_append]
  have := congrArg (List.map Prod.snd) (robotBlock_ownedParts M st.nextUniqueId)
  simpa using this

/-- The group node of the initial scene. -/
theorem initBabylonScene_group (M : JSMath α) :
    (initBabylonScene M).machineGroup = some 3
      ∧ ∃ grp, getNode 3 (initBabylonScene M).nodes = some grp ∧ grp.isDisposed = false := by
  refine ⟨rfl, ?_⟩
  unfold initBabylonScene
  rw [createMachine_nodes M _ wellFormed_sceneScaffold.ids]
  simp [previousDisposed, sceneScaffold, initialState, robotBlock, createMachine,
    createSensorIndicators, updateNode, newNode, pillar, setShadows, range_four, getNode,
    List.find?_cons]

theorem initBabylonScene_machineSpeed (M : JSMath α) :
    (initBabylonScene M).machineSpeed = 50 := rfl

/-- The rotor of the initial scene, whatever the speed is then set to. -/
theorem rotorOf_initBabylonScene (M : JSMath α) (s : α) :
    ∃ r, rotorOf { initBabylonScene M with machineSpeed := s } = some r
      ∧ r.rotation.y = 0 ∧ r.position.x = 0 ∧ r.position.z = 0 := by
  obtain ⟨r, hr, _, _, _, _, h5, h6, h7⟩ :=
    rotorOf_createMachine M sceneScaffold wellFormed_sceneScaffold
  exact ⟨r, hr, h5, h6, h7⟩

theorem emissiveOf_temp_initBabylonScene (M : JSMath α) :
    emissiveOf "tempSensor" (initBabylonScene M) = some ⟨0.94, 0.27, 0.27⟩ := by
  simp [emissiveOf, initBabylonScene, sceneScaffold, initialState, createMachine,
    createSensorIndicators, updateNode, newNode, newMaterial, pillar, setShadows, range_four,
    List.find?_cons]

/-- The parts of the group `createMachine` finds in `machineGroup`, and the
    group itself, are disposed by it. -/
theorem createMachine_previous_parts_disposed (M : JSMath α) (st : State α)
    (h : WellFormed st) (g0 : Nat) (hg : st.machineGroup = some g0) :
    ∀ p ∈ st.nodes, (p.uniqueId = g0 ∨ p.parent = some g0) →
      ∃ p1 ∈ (createMachine M st).nodes, p1.uniqueId = p.uniqueId ∧ p1.name = p.name
        ∧ p1.isDisposed = true ∧ p1.parent = none := by
  intro p hp hpart
  refine ⟨{ p with isDisposed := true, parent := none }, ?_, rfl, rfl, rfl, rfl⟩
  rw [createMachine_nodes M st h.ids, List.mem_append]
  left
  unfold previousDisposed
  rw [hg]
  exact dispose_mem_of_part g0 st.nodes p hp hpart

/-- An older node that is still live after `createMachine` is an untouched node
    that was neither the previous group nor one of its parts. -/
theorem createMachine_live_old (M : JSMath α) (st : State α) (h : WellFormed st)
    (g0 : Nat) (hg : st.machineGroup = some g0) :
    ∀ q ∈ (createMachine M st).nodes, q.uniqueId < st.nextUniqueId → q.isDisposed = false →
      q ∈ st.nodes ∧ q.uniqueId ≠ g0 ∧ q.parent ≠ some g0 := by
  intro q hq hlt hl
  rw [createMachine_nodes M st h.ids, List.mem_append] at hq
  rcases hq with hq | hq
  · unfold previousDisposed at hq
    rw [hg] at hq
    exact dispose_live g0 st.nodes q hq hl
  · have := (robotBlock_mem M _ q hq).1
    omega

end Build

/-! ## Rebuilding -/

section BuildClaims

variable {α : Type} [LinearOrderedField α]

/-- C5: after `n + 1` consecutive calls of `createMachine` (that is, any number
    `≥ 1`) from the scene scaffold, there is exactly one live `machineGroup`, the
    one the global refers to; its live children are exactly ten: body, panel,
    rotor, four pillars and three indicators; `machine` refers to the rotor of
    that group; and every node an earlier call created is disposed and has no
    parent. -/
theorem createMachine_repeated (M : JSMath α) (n : Nat) :
    ∃ g, (createMachineTimes M (n + 1) sceneScaffold).machineGroup = some g
      ∧ liveGroups (createMachineTimes M (n + 1) sceneScaffold) = [g]
      ∧ (ownedParts g (createMachineTimes M (n + 1) sceneScaffold)).map (fun p => p.name)
          = ["body", "panel", "rotor", "pillar", "pillar", "pillar", "pillar", "tempSensor",
             "pressureSensor", "vibrationSensor"]
      ∧ (ownedParts g (createMachineTimes M (n + 1) sceneScaffold)).length = 10
      ∧ (∃ r, rotorOf (createMachineTimes M (n + 1) sceneScaffold) = some r
          ∧ r.name = "rotor" ∧ r.parent = some g ∧ r.isDisposed = false)
      ∧ (createMachineTimes M (n + 1) sceneScaffold).nodes.length = 3 + 11 * (n + 1)
      ∧ ∀ x ∈ (createMachineTimes M n (sceneScaffold : State α)).nodes, 3 ≤ x.uniqueId →
          ∀ y ∈ (createMachineTimes M (n + 1) sceneScaffold).nodes, y.uniqueId = x.uniqueId →
            y.isDisposed = true ∧ y.parent = none ∧ y.parent ≠ some g := by
  have hinv := rebuilt_createMachineTimes M n
  obtain ⟨h1, h2, h3, _, h5, h6⟩ := rebuilt_observations M _ _ hinv
  obtain ⟨r, hr, _, hr2, hr3, hr4⟩ := rebuilt_rotor M _ _ hinv
  obtain ⟨hwf, hnext⟩ := createMachineTimes_wellFormed M n
  refine ⟨3 + 11 * n, h1, h2, ?_, ?_, ⟨r, hr, hr2, hr3, hr4⟩, ?_, ?_⟩
  · have := congrArg (List.map Prod.snd) h3
    simpa using this
  · have := congrArg List.length h3
    simpa using this
  · rw [h5]; ring
  · intro x hx hx3 y hy hxy
    have hlt := (hwf x hx).1
    rw [hnext] at hlt
    obtain ⟨hd, hp⟩ := h6 y hy (by omega) (by omega)
    exact ⟨hd, hp, by rw [hp]; simp⟩

/-- C8 (amended): `createMachine` takes no kind and never reads `currentMachine`;
    for every value of `currentMachine` it succeeds, leaves `currentMachine` as
    it is and builds a new group owning the ten robot parts.  The group it found
    in `machineGroup` (if any) is disposed together with its parts: the group
    node and every node that was parented to it are disposed and without
    parent afterwards, nothing live is parented to the old group, and an older
    node that is still live was neither the old group nor one of its parts. -/
theorem createMachine_ignores_kind (M : JSMath α) (st : State α) (hwf : WellFormed st) :
    (createMachine M st).currentMachine = st.currentMachine
      ∧ (createMachine M st).machineGroup = some st.nextUniqueId
      ∧ (ownedParts st.nextUniqueId (createMachine M st)).map (fun n => n.name)
          = ["body", "panel", "rotor", "pillar", "pillar", "pillar", "pillar", "tempSensor",
             "pressureSensor", "vibrationSensor"]
      ∧ ∀ g0 grp, st.machineGroup = some g0 → getNode g0 st.nodes = some grp →
          (∃ grp1, getNode g0 (createMachine M st).nodes = some grp1 ∧ grp1.isDisposed = true)
            ∧ ownedParts g0 (createMachine M st) = []
            ∧ (∀ p ∈ st.nodes, (p.uniqueId = g0 ∨ p.parent = some g0) →
                ∃ p1 ∈ (createMachine M st).nodes, p1.uniqueId = p.uniqueId
                  ∧ p1.name = p.name ∧ p1.isDisposed = true ∧ p1.parent = none)
            ∧ (∀ q ∈ (createMachine M st).nodes, q.uniqueId < st.nextUniqueId →
                q.isDisposed = false →
                  q ∈ st.nodes ∧ q.uniqueId ≠ g0 ∧ q.parent ≠ some g0) :=
  ⟨rfl, rfl, createMachine_new_parts M st hwf, fun g0 grp hg hgrp =>
    ⟨createMachine_previous_disposed M st hwf g0 grp hg hgrp,
     createMachine_previous_parts M st hwf g0 grp hg hgrp,
     createMachine_previous_parts_disposed M st hwf g0 hg,
     createMachine_live_old M st hwf g0 hg⟩⟩

/-- C10 (amended): in every well-formed state (every state ticks can reach is
    one) `createMachine` makes `machine` refer to a new rotor whose `rotation.y`
    is `0` and whose offset `position.x`, `position.z` is `(0, 0)`, while
    `machineSpeed` and `animationRunning` are unchanged. -/
theorem createMachine_resets_rotor (M : JSMath α) (st : State α) (hwf : WellFormed st) :
    ∃ r, rotorOf (createMachine M st) = some r
      ∧ r.rotation.y = 0 ∧ r.position.x = 0 ∧ r.position.z = 0
      ∧ (createMachine M st).machineSpeed = st.machineSpeed
      ∧ (createMachine M st).animationRunning = st.animationRunning := by
  obtain ⟨r, hr, _, _, _, _, h5, h6, h7⟩ := rotorOf_createMachine M st hwf
  exact ⟨r, hr, h5, h6, h7, rfl, rfl⟩

/-- C9 (amended): whatever readings the global `sensorData` holds, in particular
    after a reading for the temperature channel has been recorded in it, one
    iteration of the render loop succeeds and leaves the emissive colour of all
    three indicators (temperature, pressure and vibration) equal to what it
    was; `sensorData` itself is left as it is, unread. -/
theorem renderLoop_keeps_indicators (M : JSMath α) (now1 now2 : α)
    (readings : List (String × α)) (st : State α) :
    ∃ st1, renderLoopCallback M now1 now2 { st with sensorData := readings } = some st1
      ∧ emissiveOf "tempSensor" st1 = emissiveOf "tempSensor" st
      ∧ emissiveOf "pressureSensor" st1 = emissiveOf "pressureSensor" st
      ∧ emissiveOf "vibrationSensor" st1 = emissiveOf "vibrationSensor" st
      ∧ st1.sensorData = readings := by
  obtain ⟨st1, h1, e1, hs⟩ :=
    renderLoopCallback_emissive M now1 now2 { st with sensorData := readings } "tempSensor"
  obtain ⟨st2, h2, e2, _⟩ :=
    renderLoopCallback_emissive M now1 now2 { st with sensorData := readings } "pressureSensor"
  obtain ⟨st3, h3, e3, _⟩ :=
    renderLoopCallback_emissive M now1 now2 { st with sensorData := readings } "vibrationSensor"
  rw [h1] at h2 h3
  cases h2
  cases h3
  exact ⟨st1, h1, e1, e2, e3, hs⟩

end BuildClaims

/-! ## The animation tick -/

section TickClaims

variable {α : Type} [LinearOrderedField α]

/-- C1: for every speed `s` with `0 ≤ s ≤ 100`, one call of `animateMachine`
    succeeds and increases the rotor's `rotation.y` by exactly
    `(s/100)*0.05*2`; the increase is `0` at `s = 0` and `0.1` at `s = 100`. -/
theorem animateMachine_angle_delta (M : JSMath α) (now1 now2 : α) (st : State α) (r : Node α)
    (hr : rotorOf st = some r) (_h0 : 0 ≤ st.machineSpeed) (_h100 : st.machineSpeed ≤ 100) :
    ∃ st1 r1, animateMachine M now1 now2 st = some st1 ∧ rotorOf st1 = some r1
      ∧ r1.rotation.y - r.rotation.y = (st.machineSpeed / 100) * 0.05 * 2
      ∧ (st.machineSpeed = 0 → r1.rotation.y - r.rotation.y = 0)
      ∧ (st.machineSpeed = 100 → r1.rotation.y - r.rotation.y = 0.1) := by
  obtain ⟨st1, h1, hr1, _⟩ := rotorOf_animateMachine M now1 now2 st r hr
  have hy := tickedRotor_rotation_y M now1 now2 st.machineSpeed r
  refine ⟨st1, _, h1, hr1, ?_, ?_, ?_⟩
  · rw [hy]; ring
  · intro hs; rw [hy, hs]; norm_num
  · intro hs; rw [hy, hs]; norm_num

/-- C3 (amended): a tick executed with speed `≤ 80` on a rotor whose jitter
    offset is `(0, 0)` succeeds and leaves the offset at exactly `(0, 0)`,
    for every pair of clock readings. -/
theorem animateMachine_no_jitter (M : JSMath α) (now1 now2 : α) (st : State α) (r : Node α)
    (hr : rotorOf st = some r) (hs : st.machineSpeed ≤ 80)
    (hx : r.position.x = 0) (hz : r.position.z = 0) :
    ∃ st1 r1, animateMachine M now1 now2 st = some st1 ∧ rotorOf st1 = some r1
      ∧ r1.position.x = 0 ∧ r1.position.z = 0 := by
  obtain ⟨st1, h1, hr1, _⟩ := rotorOf_animateMachine M now1 now2 st r hr
  have hp := tickedRotor_position_of_le M now1 now2 st.machineSpeed r hs
  exact ⟨st1, _, h1, hr1, by rw [hp, hx], by rw [hp, hz]⟩

/-- C7 (amended): for every speed value the tick uses `speed/100*0.05` without
    clamping, so the angle increment is `(speed/100)*0.05*2`; it lies within
    `[0, 0.1]` exactly when `0 ≤ speed ≤ 100`. -/
theorem animateMachine_increment_unclamped (M : JSMath α) (now1 now2 : α) (st : State α)
    (r : Node α) (hr : rotorOf st = some r) :
    ∃ st1 r1, animateMachine M now1 now2 st = some st1 ∧ rotorOf st1 = some r1
      ∧ r1.rotation.y - r.rotation.y = (st.machineSpeed / 100) * 0.05 * 2
      ∧ ((0 ≤ r1.rotation.y - r.rotation.y ∧ r1.rotation.y - r.rotation.y ≤ 0.1)
          ↔ (0 ≤ st.machineSpeed ∧ st.machineSpeed ≤ 100)) := by
  obtain ⟨st1, h1, hr1, _⟩ := rotorOf_animateMachine M now1 now2 st r hr
  have hy := tickedRotor_rotation_y M now1 now2 st.machineSpeed r
  have hd : (tickedRotor M now1 now2 st.machineSpeed r).rotation.y - r.rotation.y
      = st.machineSpeed / 1000 := by
    rw [hy]; ring_nf
  refine ⟨st1, _, h1, hr1, by rw [hy]; ring, ?_⟩
  rw [hd]
  constructor
  · rintro ⟨ha, hb⟩
    constructor
    · by_contra hneg
      have : st.machineSpeed / 1000 < 0 := div_neg_of_neg_of_pos (not_le.mp hneg) (by norm_num)
      exact absurd ha (not_le.mpr this)
    · have := (div_le_iff₀ (by norm_num : (0 : α) < 1000)).mp hb
      norm_num at this
      exact this
  · rintro ⟨ha, hb⟩
    constructor
    · exact div_nonneg ha (by norm_num)
    · rw [div_le_iff₀ (by norm_num : (0 : α) < 1000)]
      norm_num
      exact hb

/-- C2 (amended): in exact arithmetic, from a rotor at angle `0`, `N` ticks at an
    unchanged speed `s` succeed and leave `rotation.y` equal to
    `N * ((s/100)*0.05*2)`; the angle is not reduced modulo `2π`. -/
theorem animateTicks_angle (M : JSMath α) (clocks : List (α × α)) (st : State α) (r : Node α)
    (hr : rotorOf st = some r) (hzero : r.rotation.y = 0) :
    ∃ st1 r1, animateTicks M clocks st = some st1 ∧ rotorOf st1 = some r1
      ∧ r1.rotation.y = (clocks.length : α) * ((st.machineSpeed / 100) * 0.05 * 2) := by
  obtain ⟨st1, r1, h1, hr1, _, hy⟩ := animateTicks_rotation M clocks st r hr
  exact ⟨st1, r1, h1, hr1, by rw [hy, hzero, zero_add]⟩

/-- C6: in a state with `animationRunning = false`, any number of iterations of
    the render-loop callback succeed and leave every node as it was; in particular
    the rotor's `rotation.y` and its offset `position.x`, `position.z` keep the
    values they had, for every speed and all clock readings. -/
theorem runRenderLoop_paused_frozen (M : JSMath α) (clocks : List (α × α)) (st : State α)
    (hp : st.animationRunning = false) :
    ∃ st1, runRenderLoop M clocks st = some st1 ∧ st1.nodes = st.nodes
      ∧ rotorOf st1 = rotorOf st ∧ st1.animationRunning = false
      ∧ st1.framesRendered = st.framesRendered + clocks.length :=
  ⟨_, runRenderLoop_paused M clocks st hp, rfl, rfl, hp, rfl⟩

end TickClaims

/-! ## The tick over the reals, with the real sine and cosine -/

section RealClaims

/-- C4: a tick executed with speed `> 80` succeeds and writes
    `x = sin(t₁*0.01)*0.02`, `z = cos(t₂*0.01)*0.02`, where `t₁` and `t₂` are
    the two clock readings of the tick: the offset depends on nothing else
    (not on the speed, the previous angle or the previous position), and
    `sqrt(x² + z²) ≤ 0.02*sqrt 2` even when the two readings differ. -/
theorem animateMachine_jitter_bound (PI t1 t2 : ℝ) (st : State ℝ) (r : Node ℝ)
    (hr : rotorOf st = some r) (hs : 80 < st.machineSpeed) :
    ∃ st1 r1, animateMachine (JSMath.mk Real.sin Real.cos PI) t1 t2 st = some st1
      ∧ rotorOf st1 = some r1
      ∧ r1.position.x = Real.sin (t1 * 0.01) * 0.02
      ∧ r1.position.z = Real.cos (t2 * 0.01) * 0.02
      ∧ Real.sqrt (r1.position.x ^ 2 + r1.position.z ^ 2) ≤ 0.02 * Real.sqrt 2 := by
  obtain ⟨st1, h1, hr1, _⟩ := rotorOf_animateMachine (JSMath.mk Real.sin Real.cos PI) t1 t2 st r hr
  obtain ⟨hx, hz⟩ :=
    tickedRotor_position_of_gt (JSMath.mk Real.sin Real.cos PI) t1 t2 st.machineSpeed r hs
  refine ⟨st1, _, h1, hr1, hx, hz, ?_⟩
  rw [hx, hz, Real.sqrt_le_iff]
  refine ⟨by positivity, ?_⟩
  have h2 : Real.sqrt 2 ^ 2 = 2 := Real.sq_sqrt (by norm_num)
  have hsin := Real.sin_sq_le_one (t1 * 0.01)
  have hcos := Real.cos_sq_le_one (t2 * 0.01)
  have : (0.02 * Real.sqrt 2) ^ 2 = 0.0004 * 2 := by rw [mul_pow, h2]; norm_num
  rw [this]
  nlinarith [sq_nonneg (Real.sin (t1 * 0.01)), sq_nonneg (Real.cos (t2 * 0.01))]

/-- Witness for C1: the first tick of the initial scene (speed 50) adds `0.05`. -/
theorem animateMachine_angle_delta_witness :
    ∃ r, rotorOf (initBabylonScene (JSMath.mk Real.sin Real.cos Real.pi)) = some r
      ∧ (0 : ℝ) ≤ (initBabylonScene (JSMath.mk Real.sin Real.cos Real.pi)).machineSpeed
      ∧ (initBabylonScene (JSMath.mk Real.sin Real.cos Real.pi)).machineSpeed ≤ 100
      ∧ ∃ st1 r1, animateMachine (JSMath.mk Real.sin Real.cos Real.pi) 16 17 (initBabylonScene (JSMath.mk Real.sin Real.cos Real.pi)) = some st1
          ∧ rotorOf st1 = some r1 ∧ r1.rotation.y - r.rotation.y = 0.05 := by
  obtain ⟨r, hr, _⟩ := rotorOf_initBabylonScene (JSMath.mk Real.sin Real.cos Real.pi) 50
  have h0 : (0 : ℝ) ≤ (initBabylonScene (JSMath.mk Real.sin Real.cos Real.pi)).machineSpeed := by
    rw [initBabylonScene_machineSpeed]; norm_num
  have h100 : (initBabylonScene (JSMath.mk Real.sin Real.cos Real.pi)).machineSpeed ≤ 100 := by
    rw [initBabylonScene_machineSpeed]; norm_num
  obtain ⟨st1, r1, a, b, c, _, _⟩ :=
    animateMachine_angle_delta (JSMath.mk Real.sin Real.cos Real.pi) 16 17 (initBabylonScene (JSMath.mk Real.sin Real.cos Real.pi)) r hr h0 h100
  refine ⟨r, hr, h0, h100, st1, r1, a, b, ?_⟩
  rw [c, initBabylonScene_machineSpeed]
  norm_num

/-- Counterexample for C2: at speed 90 the exact angle after 100 ticks is `9`, which
    is not below `2π` and is not `(100 * 0.09) mod 2π`. -/
theorem animateTicks_angle_not_wrapped :
    ∃ st1 r1,
      animateTicks (JSMath.mk Real.sin Real.cos Real.pi) (List.replicate 100 (0, 0))
          { initBabylonScene (JSMath.mk Real.sin Real.cos Real.pi) with machineSpeed := 90 } = some st1
        ∧ rotorOf st1 = some r1 ∧ r1.rotation.y = 9 ∧ ¬ (r1.rotation.y < 2 * Real.pi)
        ∧ r1.rotation.y
            ≠ 100 * 0.09 - 2 * Real.pi * ((⌊(100 * 0.09 : ℝ) / (2 * Real.pi)⌋ : ℤ) : ℝ) := by
  obtain ⟨r, hr, hy0, _⟩ := rotorOf_initBabylonScene (JSMath.mk Real.sin Real.cos Real.pi) 90
  obtain ⟨st1, r1, h1, hr1, _, hy⟩ := animateTicks_rotation (JSMath.mk Real.sin Real.cos Real.pi) (List.replicate 100 (0, 0)) _ r hr
  have h9 : r1.rotation.y = 9 := by
    rw [hy, hy0, List.length_replicate]
    norm_num
  have hpi : 2 * Real.pi < 9 := by
    have := Real.pi_lt_d2
    linarith
  refine ⟨st1, r1, h1, hr1, h9, ?_, ?_⟩
  · rw [h9]; exact not_lt.mpr hpi.le
  · rw [h9]
    intro he
    rw [show ((100 : ℝ) * 0.09) = 9 by norm_num] at he
    have hpos : (2 * Real.pi) ≠ 0 := by positivity
    have hmul : 2 * Real.pi * ((⌊(9 : ℝ) / (2 * Real.pi)⌋ : ℤ) : ℝ) = 0 := by linarith
    have hk : ((⌊(9 : ℝ) / (2 * Real.pi)⌋ : ℤ) : ℝ) = 0 := by
      rcases mul_eq_zero.mp hmul with h | h
      · exact absurd h hpos
      · exact h
    have hk0 : ⌊(9 : ℝ) / (2 * Real.pi)⌋ = 0 := by exact_mod_cast hk
    rw [Int.floor_eq_zero_iff] at hk0
    have hlt := hk0.2
    rw [div_lt_one (by positivity)] at hlt
    linarith

/-- Witness for C2: speed 90, 100 ticks from the initial scene; the exact sum
    of the hundred increments is `9`. -/
theorem animateTicks_angle_witness :
    ∃ r, rotorOf { initBabylonScene (JSMath.mk Real.sin Real.cos Real.pi) with machineSpeed := 90 } = some r
      ∧ r.rotation.y = 0
      ∧ ∃ st1 r1,
          animateTicks (JSMath.mk Real.sin Real.cos Real.pi) (List.replicate 100 (0, 0))
            { initBabylonScene (JSMath.mk Real.sin Real.cos Real.pi) with machineSpeed := 90 } = some st1
          ∧ rotorOf st1 = some r1 ∧ r1.rotation.y = 9 := by
  obtain ⟨r, hr, hy0, _⟩ := rotorOf_initBabylonScene (JSMath.mk Real.sin Real.cos Real.pi) 90
  obtain ⟨st1, r1, a, b, c⟩ :=
    animateTicks_angle (JSMath.mk Real.sin Real.cos Real.pi) (List.replicate 100 (0, 0))
      { initBabylonScene (JSMath.mk Real.sin Real.cos Real.pi) with machineSpeed := 90 } r hr hy0
  refine ⟨r, hr, hy0, st1, r1, a, b, ?_⟩
  rw [c, List.length_replicate]
  norm_num

/-- Counterexample for C3: a tick at speed 90 with clock reading 0 puts the rotor
    at `z = 0.02`; a following tick at speed 50 leaves it there. -/
theorem animateMachine_jitter_stays :
    ∃ st1 st2 r2,
      animateMachine (JSMath.mk Real.sin Real.cos Real.pi) 0 0 { initBabylonScene (JSMath.mk Real.sin Real.cos Real.pi) with machineSpeed := 90 } = some st1
        ∧ animateMachine (JSMath.mk Real.sin Real.cos Real.pi) 16 16 { st1 with machineSpeed := 50 } = some st2
        ∧ rotorOf st2 = some r2 ∧ r2.position.z = 0.02
        ∧ ¬ (r2.position.x = 0 ∧ r2.position.z = 0) := by
  obtain ⟨r, hr, _⟩ := rotorOf_initBabylonScene (JSMath.mk Real.sin Real.cos Real.pi) 90
  obtain ⟨st1, h1, hr1, _⟩ := rotorOf_animateMachine (JSMath.mk Real.sin Real.cos Real.pi) 0 0 _ r hr
  have hr1b : rotorOf { st1 with machineSpeed := 50 } = rotorOf st1 := rfl
  obtain ⟨st2, h2, hr2, _⟩ := rotorOf_animateMachine (JSMath.mk Real.sin Real.cos Real.pi) 16 16 { st1 with machineSpeed := 50 } _
    (hr1b.trans hr1)
  have hz : (tickedRotor (JSMath.mk Real.sin Real.cos Real.pi) 16 16 50 (tickedRotor (JSMath.mk Real.sin Real.cos Real.pi) 0 0 90 r)).position.z = 0.02 := by
    rw [tickedRotor_position_of_le (JSMath.mk Real.sin Real.cos Real.pi) 16 16 50 _ (by norm_num),
      (tickedRotor_position_of_gt (JSMath.mk Real.sin Real.cos Real.pi) 0 0 90 r (by norm_num)).2]
    simp
  refine ⟨st1, st2, _, h1, h2, hr2, hz, ?_⟩
  rintro ⟨_, hz0⟩
  have hz2 : (tickedRotor (JSMath.mk Real.sin Real.cos Real.pi) 16 16 50 (tickedRotor (JSMath.mk Real.sin Real.cos Real.pi) 0 0 90 r)).position.z = 0 := hz0
  rw [hz] at hz2
  norm_num at hz2

/-- Witness for C3: the first tick of the initial scene (speed 50). -/
theorem animateMachine_no_jitter_witness :
    ∃ r, rotorOf (initBabylonScene (JSMath.mk Real.sin Real.cos Real.pi)) = some r
      ∧ (initBabylonScene (JSMath.mk Real.sin Real.cos Real.pi)).machineSpeed ≤ 80 ∧ r.position.x = 0 ∧ r.position.z = 0
      ∧ ∃ st1 r1, animateMachine (JSMath.mk Real.sin Real.cos Real.pi) 16 17 (initBabylonScene (JSMath.mk Real.sin Real.cos Real.pi)) = some st1
          ∧ rotorOf st1 = some r1 ∧ r1.position.x = 0 ∧ r1.position.z = 0 := by
  obtain ⟨r, hr, _, hx, hz⟩ := rotorOf_initBabylonScene (JSMath.mk Real.sin Real.cos Real.pi) 50
  have hs : (initBabylonScene (JSMath.mk Real.sin Real.cos Real.pi)).machineSpeed ≤ 80 := by
    rw [initBabylonScene_machineSpeed]; norm_num
  exact ⟨r, hr, hs, hx, hz,
    animateMachine_no_jitter (JSMath.mk Real.sin Real.cos Real.pi) 16 17 (initBabylonScene (JSMath.mk Real.sin Real.cos Real.pi)) r hr hs hx hz⟩

/-- Witness for C4: a tick at speed 90 with clock readings 16 and 17. -/
theorem animateMachine_jitter_bound_witness :
    ∃ r, rotorOf { initBabylonScene (JSMath.mk Real.sin Real.cos Real.pi) with machineSpeed := 90 } = some r
      ∧ (80 : ℝ) < 90
      ∧ ∃ st1 r1,
          animateMachine (JSMath.mk Real.sin Real.cos Real.pi) 16 17 { initBabylonScene (JSMath.mk Real.sin Real.cos Real.pi) with machineSpeed := 90 } = some st1
          ∧ rotorOf st1 = some r1
          ∧ r1.position.x = Real.sin (16 * 0.01) * 0.02
          ∧ r1.position.z = Real.cos (17 * 0.01) * 0.02
          ∧ Real.sqrt (r1.position.x ^ 2 + r1.position.z ^ 2) ≤ 0.02 * Real.sqrt 2 := by
  obtain ⟨r, hr, _⟩ := rotorOf_initBabylonScene (JSMath.mk Real.sin Real.cos Real.pi) 90
  have hs : (80 : ℝ) < 90 := by norm_num
  exact ⟨r, hr, hs,
    animateMachine_jitter_bound Real.pi 16 17
      { initBabylonScene (JSMath.mk Real.sin Real.cos Real.pi) with machineSpeed := 90 } r hr hs⟩

/-- Witness for C6: two iterations of the render loop on the paused initial scene. -/
theorem runRenderLoop_paused_frozen_witness :
    ∃ st1,
      runRenderLoop (JSMath.mk Real.sin Real.cos Real.pi) [(0, 0), (16, 17)]
          { initBabylonScene (JSMath.mk Real.sin Real.cos Real.pi) with animationRunning := false, machineSpeed := 90 } = some st1
        ∧ st1.nodes = (initBabylonScene (JSMath.mk Real.sin Real.cos Real.pi)).nodes
        ∧ rotorOf st1
            = rotorOf { initBabylonScene (JSMath.mk Real.sin Real.cos Real.pi) with animationRunning := false, machineSpeed := 90 }
        ∧ st1.animationRunning = false
        ∧ st1.framesRendered = 2 := by
  obtain ⟨st1, a, b, c, d, e⟩ :=
    runRenderLoop_paused_frozen (JSMath.mk Real.sin Real.cos Real.pi) [(0, 0), (16, 17)]
      { initBabylonScene (JSMath.mk Real.sin Real.cos Real.pi) with animationRunning := false, machineSpeed := 90 } rfl
  exact ⟨st1, a, b, c, d, e⟩

/-- Counterexample for C7: at speed 200 the increment is `0.2`, above `0.1` and
    different from the clamped `clamp(200, 0, 100)/100*0.05*2`. -/
theorem animateMachine_speed_not_clamped :
    ∃ r st1 r1,
      rotorOf { initBabylonScene (JSMath.mk Real.sin Real.cos Real.pi) with machineSpeed := 200 } = some r
        ∧ animateMachine (JSMath.mk Real.sin Real.cos Real.pi) 0 0 { initBabylonScene (JSMath.mk Real.sin Real.cos Real.pi) with machineSpeed := 200 } = some st1
        ∧ rotorOf st1 = some r1
        ∧ r1.rotation.y - r.rotation.y = 0.2
        ∧ ¬ (r1.rotation.y - r.rotation.y ≤ 0.1)
        ∧ r1.rotation.y - r.rotation.y ≠ max 0 (min (200 : ℝ) 100) / 100 * 0.05 * 2 := by
  obtain ⟨r, hr, _⟩ := rotorOf_initBabylonScene (JSMath.mk Real.sin Real.cos Real.pi) 200
  obtain ⟨st1, h1, hr1, _⟩ := rotorOf_animateMachine (JSMath.mk Real.sin Real.cos Real.pi) 0 0 _ r hr
  have hd : (tickedRotor (JSMath.mk Real.sin Real.cos Real.pi) 0 0 200 r).rotation.y - r.rotation.y = 0.2 := by
    rw [tickedRotor_rotation_y]; norm_num
  refine ⟨r, st1, _, hr, h1, hr1, hd, ?_, ?_⟩
  · have hd2 : (tickedRotor (JSMath.mk Real.sin Real.cos Real.pi) 0 0 200 r).rotation.y - r.rotation.y = 0.2 := hd
    intro hle
    have hle2 : (tickedRotor (JSMath.mk Real.sin Real.cos Real.pi) 0 0 200 r).rotation.y - r.rotation.y ≤ 0.1 := hle
    rw [hd2] at hle2
    norm_num at hle2
  · intro he
    have he2 : (tickedRotor (JSMath.mk Real.sin Real.cos Real.pi) 0 0 200 r).rotation.y - r.rotation.y
        = max 0 (min (200 : ℝ) 100) / 100 * 0.05 * 2 := he
    rw [hd] at he2
    norm_num at he2

/-- Witness for C7: a tick of the initial scene at speed 200. -/
theorem animateMachine_increment_unclamped_witness :
    ∃ r, rotorOf { initBabylonScene (JSMath.mk Real.sin Real.cos Real.pi) with machineSpeed := 200 } = some r
      ∧ ∃ st1 r1,
          animateMachine (JSMath.mk Real.sin Real.cos Real.pi) 0 0 { initBabylonScene (JSMath.mk Real.sin Real.cos Real.pi) with machineSpeed := 200 } = some st1
          ∧ rotorOf st1 = some r1 ∧ r1.rotation.y - r.rotation.y = 0.2 := by
  obtain ⟨r, hr, _⟩ := rotorOf_initBabylonScene (JSMath.mk Real.sin Real.cos Real.pi) 200
  obtain ⟨st1, r1, a, b, c, _⟩ :=
    animateMachine_increment_unclamped (JSMath.mk Real.sin Real.cos Real.pi) 0 0
      { initBabylonScene (JSMath.mk Real.sin Real.cos Real.pi) with machineSpeed := 200 } r hr
  refine ⟨r, hr, st1, r1, a, b, ?_⟩
  rw [c]
  norm_num

/-- Counterexample for C8: with `currentMachine = "conveyor"`, `createMachine`
    does not fail; it disposes the live group 3 and installs a new group. -/
theorem createMachine_unknown_kind_rebuilds :
    ({ initBabylonScene (JSMath.mk Real.sin Real.cos Real.pi) with currentMachine := "conveyor" } : State ℝ).currentMachine ≠ "robot"
      ∧ ∃ grp grp1,
          getNode 3 ({ initBabylonScene (JSMath.mk Real.sin Real.cos Real.pi) with currentMachine := "conveyor" } : State ℝ).nodes
              = some grp
            ∧ grp.isDisposed = false
            ∧ getNode 3
                (createMachine (JSMath.mk Real.sin Real.cos Real.pi) { initBabylonScene (JSMath.mk Real.sin Real.cos Real.pi) with currentMachine := "conveyor" }).nodes
              = some grp1
            ∧ grp1.isDisposed = true
            ∧ (createMachine (JSMath.mk Real.sin Real.cos Real.pi) { initBabylonScene (JSMath.mk Real.sin Real.cos Real.pi) with currentMachine := "conveyor" }).machineGroup
              ≠ ({ initBabylonScene (JSMath.mk Real.sin Real.cos Real.pi) with currentMachine := "conveyor" } : State ℝ).machineGroup := by
  obtain ⟨hg, grp, hgrp, hlive⟩ := initBabylonScene_group (JSMath.mk Real.sin Real.cos Real.pi)
  obtain ⟨grp1, h1, h2⟩ :=
    createMachine_previous_disposed (JSMath.mk Real.sin Real.cos Real.pi) { initBabylonScene (JSMath.mk Real.sin Real.cos Real.pi) with currentMachine := "conveyor" }
      (wellFormed_initBabylonScene (JSMath.mk Real.sin Real.cos Real.pi)) 3 grp hg hgrp
  refine ⟨by decide, grp, grp1, hgrp, hlive, h1, h2, ?_⟩
  show some 14 ≠ some 3
  decide

/-- Witness for C8: rebuilding the initial scene with `currentMachine = "conveyor"`;
    the ten parts of group 3 are disposed and group 14 owns ten new ones. -/
theorem createMachine_ignores_kind_witness :
    WellFormed ({ initBabylonScene (JSMath.mk Real.sin Real.cos Real.pi) with currentMachine := "conveyor" } : State ℝ)
      ∧ (ownedParts 3 ({ initBabylonScene (JSMath.mk Real.sin Real.cos Real.pi) with currentMachine := "conveyor" } : State ℝ)).length
          = 10
      ∧ (createMachine (JSMath.mk Real.sin Real.cos Real.pi) { initBabylonScene (JSMath.mk Real.sin Real.cos Real.pi) with currentMachine := "conveyor" }).currentMachine
          = "conveyor"
      ∧ (createMachine (JSMath.mk Real.sin Real.cos Real.pi) { initBabylonScene (JSMath.mk Real.sin Real.cos Real.pi) with currentMachine := "conveyor" }).machineGroup
          = some 14
      ∧ (ownedParts 14
          (createMachine (JSMath.mk Real.sin Real.cos Real.pi) { initBabylonScene (JSMath.mk Real.sin Real.cos Real.pi) with currentMachine := "conveyor" })).length = 10
      ∧ ownedParts 3
          (createMachine (JSMath.mk Real.sin Real.cos Real.pi) { initBabylonScene (JSMath.mk Real.sin Real.cos Real.pi) with currentMachine := "conveyor" }) = []
      ∧ (∀ p ∈ ({ initBabylonScene (JSMath.mk Real.sin Real.cos Real.pi) with currentMachine := "conveyor" } : State ℝ).nodes,
          (p.uniqueId = 3 ∨ p.parent = some 3) →
            ∃ p1 ∈ (createMachine (JSMath.mk Real.sin Real.cos Real.pi)
                { initBabylonScene (JSMath.mk Real.sin Real.cos Real.pi) with currentMachine := "conveyor" }).nodes,
              p1.uniqueId = p.uniqueId ∧ p1.name = p.name ∧ p1.isDisposed = true
                ∧ p1.parent = none) := by
  have hwf : WellFormed ({ initBabylonScene (JSMath.mk Real.sin Real.cos Real.pi) with currentMachine := "conveyor" } : State ℝ) :=
    wellFormed_initBabylonScene (JSMath.mk Real.sin Real.cos Real.pi)
  obtain ⟨hg, grp, hgrp, _⟩ := initBabylonScene_group (JSMath.mk Real.sin Real.cos Real.pi)
  have hold : (ownedParts 3
      ({ initBabylonScene (JSMath.mk Real.sin Real.cos Real.pi) with currentMachine := "conveyor" } : State ℝ)).length = 10 := by
    have := congrArg List.length (createMachine_new_parts (JSMath.mk Real.sin Real.cos Real.pi) sceneScaffold wellFormed_sceneScaffold)
    simpa using this
  obtain ⟨a, b, c, d⟩ :=
    createMachine_ignores_kind (JSMath.mk Real.sin Real.cos Real.pi) { initBabylonScene (JSMath.mk Real.sin Real.cos Real.pi) with currentMachine := "conveyor" } hwf
  obtain ⟨_, d2, d3, _⟩ := d 3 grp hg hgrp
  refine ⟨hwf, hold, a, b, ?_, d2, d3⟩
  have := congrArg List.length c
  simpa using this

/-- Counterexample for C9: in the initial scene, with a temperature reading `v`
    recorded in `sensorData`, one render-loop iteration leaves the temperature
    indicator at the colour `(0.94, 0.27, 0.27)` it was built with, for every
    `v`; so no reading changes the indicator, and no mapping that tells the
    readings 0 and 100 apart describes its colour. -/
theorem renderLoop_reading_not_shown :
    emissiveOf "tempSensor" (initBabylonScene (JSMath.mk Real.sin Real.cos Real.pi)) = some ⟨0.94, 0.27, 0.27⟩
      ∧ (∀ v : ℝ, ∃ st1,
          renderLoopCallback (JSMath.mk Real.sin Real.cos Real.pi) 0 0
              { initBabylonScene (JSMath.mk Real.sin Real.cos Real.pi) with sensorData := [("temperature", v)] } = some st1
            ∧ emissiveOf "tempSensor" st1 = some ⟨0.94, 0.27, 0.27⟩)
      ∧ ¬ ∃ f : String → ℝ → Color3 ℝ,
          f "temperature" 0 ≠ f "temperature" 100
            ∧ ∀ v st1,
                renderLoopCallback (JSMath.mk Real.sin Real.cos Real.pi) 0 0
                    { initBabylonScene (JSMath.mk Real.sin Real.cos Real.pi) with sensorData := [("temperature", v)] } = some st1 →
                  emissiveOf "tempSensor" st1 = some (f "temperature" v) := by
  have hall : ∀ v : ℝ, ∃ st1,
      renderLoopCallback (JSMath.mk Real.sin Real.cos Real.pi) 0 0
          { initBabylonScene (JSMath.mk Real.sin Real.cos Real.pi) with sensorData := [("temperature", v)] } = some st1
        ∧ emissiveOf "tempSensor" st1 = some ⟨0.94, 0.27, 0.27⟩ := by
    intro v
    obtain ⟨st1, h1, e1, _⟩ := renderLoopCallback_emissive (JSMath.mk Real.sin Real.cos Real.pi) 0 0
      { initBabylonScene (JSMath.mk Real.sin Real.cos Real.pi) with sensorData := [("temperature", v)] } "tempSensor"
    exact ⟨st1, h1, e1.trans (emissiveOf_temp_initBabylonScene (JSMath.mk Real.sin Real.cos Real.pi))⟩
  refine ⟨emissiveOf_temp_initBabylonScene (JSMath.mk Real.sin Real.cos Real.pi), hall, ?_⟩
  rintro ⟨f, hne, hf⟩
  obtain ⟨sa, ha, ea⟩ := hall 0
  obtain ⟨sb, hb, eb⟩ := hall 100
  have fa := hf 0 sa ha
  have fb := hf 100 sb hb
  rw [ea] at fa
  rw [eb] at fb
  have h0 : f "temperature" 0 = ⟨0.94, 0.27, 0.27⟩ := (Option.some.inj fa).symm
  have h100 : f "temperature" 100 = ⟨0.94, 0.27, 0.27⟩ := (Option.some.inj fb).symm
  exact hne (h0.trans h100.symm)

/-- Counterexample for C10: after a tick at speed 90 with clock reading 0 the
    rotor is at `z = 0.02`; after `createMachine` the rotor `machine` refers to
    is at `z = 0`. -/
theorem createMachine_drops_jitter :
    ∃ st1 r r1,
      animateMachine (JSMath.mk Real.sin Real.cos Real.pi) 0 0 { initBabylonScene (JSMath.mk Real.sin Real.cos Real.pi) with machineSpeed := 90 } = some st1
        ∧ rotorOf st1 = some r ∧ rotorOf (createMachine (JSMath.mk Real.sin Real.cos Real.pi) st1) = some r1
        ∧ r.position.z = 0.02 ∧ r1.position.z = 0 ∧ r1.position.z ≠ r.position.z := by
  obtain ⟨r0, hr0, _⟩ := rotorOf_initBabylonScene (JSMath.mk Real.sin Real.cos Real.pi) 90
  obtain ⟨st1, h1, hr1, _⟩ := rotorOf_animateMachine (JSMath.mk Real.sin Real.cos Real.pi) 0 0 _ r0 hr0
  have hwf : WellFormed st1 :=
    wellFormed_animateMachine (JSMath.mk Real.sin Real.cos Real.pi) 0 0
      { initBabylonScene (JSMath.mk Real.sin Real.cos Real.pi) with machineSpeed := 90 } st1
      (wellFormed_initBabylonScene (JSMath.mk Real.sin Real.cos Real.pi)) h1
  obtain ⟨r1, hr, _, _, _, _, _, _, hz1⟩ := rotorOf_createMachine (JSMath.mk Real.sin Real.cos Real.pi) st1 hwf
  have hz : (tickedRotor (JSMath.mk Real.sin Real.cos Real.pi) 0 0 90 r0).position.z = 0.02 := by
    rw [(tickedRotor_position_of_gt (JSMath.mk Real.sin Real.cos Real.pi) 0 0 90 r0 (by norm_num)).2]
    simp
  refine ⟨st1, _, r1, h1, hr1, hr, hz, hz1, ?_⟩
  rw [hz1]
  intro he
  have he2 : (0 : ℝ) = (tickedRotor (JSMath.mk Real.sin Real.cos Real.pi) 0 0 90 r0).position.z := he
  rw [hz] at he2
  norm_num at he2

/-- Witness for C10: rebuilding after one tick at speed 90. -/
theorem createMachine_resets_rotor_witness :
    ∃ st1, animateMachine (JSMath.mk Real.sin Real.cos Real.pi) 0 0 { initBabylonScene (JSMath.mk Real.sin Real.cos Real.pi) with machineSpeed := 90 } = some st1
      ∧ WellFormed st1
      ∧ ∃ r, rotorOf (createMachine (JSMath.mk Real.sin Real.cos Real.pi) st1) = some r
          ∧ r.rotation.y = 0 ∧ r.position.x = 0 ∧ r.position.z = 0
          ∧ (createMachine (JSMath.mk Real.sin Real.cos Real.pi) st1).machineSpeed = st1.machineSpeed
          ∧ (createMachine (JSMath.mk Real.sin Real.cos Real.pi) st1).animationRunning = st1.animationRunning := by
  obtain ⟨r0, hr0, _⟩ := rotorOf_initBabylonScene (JSMath.mk Real.sin Real.cos Real.pi) 90
  obtain ⟨st1, h1, _⟩ := rotorOf_animateMachine (JSMath.mk Real.sin Real.cos Real.pi) 0 0 _ r0 hr0
  have hwf : WellFormed st1 :=
    wellFormed_animateMachine (JSMath.mk Real.sin Real.cos Real.pi) 0 0
      { initBabylonScene (JSMath.mk Real.sin Real.cos Real.pi) with machineSpeed := 90 } st1
      (wellFormed_initBabylonScene (JSMath.mk Real.sin Real.cos Real.pi)) h1
  exact ⟨st1, h1, hwf, createMachine_resets_rotor (JSMath.mk Real.sin Real.cos Real.pi) st1 hwf⟩

end RealClaims

end SmartX
